import Mathlib

/-!
Verification of the dual-timeline snapshot navigation model of the
pymonitor-vscode webview scripts.

The authoritative navigation logic lives in three webview script variants:
`src/webview/js/stackRecording.js` (the canonical, feature-complete variant),
`src/webview/js/stackTrace.js`, and an unnamed older variant (`part_006`).
Each is embedded below as a pure state-transition system:

* JS module-level mutable variables (`snapshots`, `currentStep`,
  `localSnapshots`, `localStep`) become fields of a state structure.
* Each `postMessage` handler / DOM event listener becomes a function
  `State → Result`, where `Result` carries the state as mutated up to the
  point the handler finished or threw, the list of `highlightLine` messages
  it posted, and an `err` flag set when a `TypeError` (property access on
  `undefined`) escapes the handler.  JS state mutations performed before a
  throw survive the throw, so the result state is meaningful even on error.
* JS numbers used as indices are modeled as `Int`; `arr[i]` yields
  `undefined` outside bounds, modeled as `Option` via `jsIdx`;
  `Array.prototype.findIndex` returns `-1` when no element matches,
  modeled by `findIndexI`.
* Purely presentational DOM writes (innerHTML, slider positions, counters)
  are omitted except where a claim observes them (the local prev/next
  button `disabled` flags, the local slider `max`).
-/

/-- One serialized local variable: `{ value, type }` as delivered by the API. -/
structure VarData where
  value : String
  type : String
deriving DecidableEq, Repr

/-- One execution snapshot as consumed by `stackRecording.js`: identifier
field `snapshot_id`, 1-based source line `line`, and the `locals` object
(an insertion-ordered string-keyed map, modeled as an association list). -/
structure Snapshot where
  snapshot_id : Int
  line : Int
  locals : List (String × VarData)
deriving DecidableEq, Repr

/-- JS array indexing `arr[i]` for a possibly negative or out-of-range
index: `undefined` (here `none`) outside `[0, length)`. -/
def jsIdx {α : Type} (l : List α) (i : Int) : Option α :=
  if i < 0 then none else l.get? i.toNat

/-- JS `Array.prototype.findIndex`: index of the first match, `-1` if none. -/
def findIndexI {α : Type} (l : List α) (p : α → Bool) : Int :=
  if l.findIdx p < l.length then (l.findIdx p : Int) else -1

namespace StackRecording

/-- The module-level mutable state of `stackRecording.js` that the
navigation logic reads and writes: the global timeline and cursor, the
derived per-line timeline and cursor, and the `disabled` flags of the
local prev/next buttons (the only DOM state a claim observes). -/
structure St where
  snapshots : List Snapshot
  currentStep : Int
  localSnapshots : List Snapshot
  localStep : Int
  localPrevDisabled : Bool
  localNextDisabled : Bool
deriving DecidableEq, Repr

/-- Outcome of running one handler: final state (mutations before a throw
survive), the lines passed to `requestHighlight`, and whether a
`TypeError` escaped. -/
structure Res where
  state : St
  msgs : List Int
  err : Bool
deriving DecidableEq, Repr

/-- `snapshots.findIndex(s => s.snapshot_id === snapshot.snapshot_id)`
where `snapshot` may be `undefined`: the arrow function dereferences
`snapshot.snapshot_id` on its first invocation, so a nonempty array with an
`undefined` capture throws; an empty array never invokes the callback. -/
def findIndexById (l : List Snapshot) (osnap : Option Snapshot) : Except Unit Int :=
  match l, osnap with
  | [], _ => Except.ok (-1)
  | _ :: _, none => Except.error ()
  | l', some t => Except.ok (findIndexI l' (fun u => u.snapshot_id == t.snapshot_id))

/-- `updateLocalTimeline` (stackRecording.js:1215-1247): recompute
`localSnapshots` as the global entries sharing the current snapshot's line,
`localStep` as the index of the current snapshot's id there, and refresh the
local prev/next `disabled` flags.  Early-returns (leaving everything stale)
when the timeline is empty, `currentStep >= snapshots.length`, or the
indexed snapshot is `undefined`. -/
def updateLocalTimeline (s : St) : St :=
  if s.snapshots.length = 0 ∨ (s.snapshots.length : Int) ≤ s.currentStep then s
  else
    match jsIdx s.snapshots s.currentStep with
    | none => s
    | some cur =>
      let ls := s.snapshots.filter (fun t => t.line == cur.line)
      let lstep := findIndexI ls (fun t => t.snapshot_id == cur.snapshot_id)
      { s with localSnapshots := ls, localStep := lstep,
               localPrevDisabled := lstep ≤ 0,
               localNextDisabled := (ls.length : Int) - 1 ≤ lstep }

/-- `updateCurrentFrame` (stackRecording.js:1175-1212): early return on an
empty timeline; otherwise render `snapshots[currentStep]` (throwing a
`TypeError` when that is `undefined`) and end by calling
`updateLocalTimeline`. -/
def updateCurrentFrame (s : St) : Except Unit St :=
  if s.snapshots.length = 0 then Except.ok s
  else
    match jsIdx s.snapshots s.currentStep with
    | none => Except.error ()
    | some _ => Except.ok (updateLocalTimeline s)

/-- `updateCurrentStepAndUI` (stackRecording.js:907-925): set
`currentStep := newStep` unconditionally, run `updateCurrentFrame`, then
call `requestHighlight(snapshots[currentStep].line)` — which throws when
`currentStep` is out of bounds. -/
def updateCurrentStepAndUI (newStep : Int) (s : St) : Res :=
  let s1 := { s with currentStep := newStep }
  match updateCurrentFrame s1 with
  | Except.error _ => ⟨s1, [], true⟩
  | Except.ok s2 =>
    match jsIdx s2.snapshots s2.currentStep with
    | none => ⟨s2, [], true⟩
    | some snap => ⟨s2, [snap.line], false⟩

/-- Global timeline slider `input` listener (stackRecording.js:238-245):
guarded by `newStep !== currentStep && newStep >= 0 && newStep < length`. -/
def sliderInput (v : Int) (s : St) : Res :=
  if v ≠ s.currentStep ∧ 0 ≤ v ∧ v < (s.snapshots.length : Int) then
    updateCurrentStepAndUI v s
  else ⟨s, [], false⟩

/-- Previous-button listener (stackRecording.js:248-254). -/
def prevClick (s : St) : Res :=
  if 0 < s.currentStep then updateCurrentStepAndUI (s.currentStep - 1) s
  else ⟨s, [], false⟩

/-- Next-button listener (stackRecording.js:257-263). -/
def nextClick (s : St) : Res :=
  if s.currentStep < (s.snapshots.length : Int) - 1 then
    updateCurrentStepAndUI (s.currentStep + 1) s
  else ⟨s, [], false⟩

/-- The local-to-global mapping block duplicated verbatim inside the local
slider/prev/next listeners (stackRecording.js:271-277, 287-294, 302-309),
run after `localStep` has already been mutated:
`snapshot = localSnapshots[localStep]`, find its global index by
`snapshot_id` equality, and navigate there if found and different. -/
def localNavigate (s : St) : Res :=
  match findIndexById s.snapshots (jsIdx s.localSnapshots s.localStep) with
  | Except.error _ => ⟨s, [], true⟩
  | Except.ok g =>
    if g ≠ -1 ∧ g ≠ s.currentStep then updateCurrentStepAndUI g s
    else ⟨s, [], false⟩

/-- Local timeline slider `input` listener (stackRecording.js:266-280). -/
def localSliderInput (v : Int) (s : St) : Res :=
  if v ≠ s.localStep ∧ 0 < s.localSnapshots.length then
    localNavigate { s with localStep := v }
  else ⟨s, [], false⟩

/-- Local previous-button listener (stackRecording.js:283-296). -/
def localPrevClick (s : St) : Res :=
  if 0 < s.localStep ∧ 0 < s.localSnapshots.length then
    localNavigate { s with localStep := s.localStep - 1 }
  else ⟨s, [], false⟩

/-- Local next-button listener (stackRecording.js:299-312). -/
def localNextClick (s : St) : Res :=
  if s.localStep < (s.localSnapshots.length : Int) - 1 ∧ 0 < s.localSnapshots.length then
    localNavigate { s with localStep := s.localStep + 1 }
  else ⟨s, [], false⟩

/-- `setSnapshots` message handler (stackRecording.js:956-1005): replace
the timeline wholesale, reset `currentStep` to 0, run `updateCurrentFrame`,
and request the initial highlight only when nonempty. -/
def onSetSnapshots (snaps : List Snapshot) (s : St) : Res :=
  let s1 := { s with snapshots := snaps, currentStep := 0 }
  match updateCurrentFrame s1 with
  | Except.error _ => ⟨s1, [], true⟩
  | Except.ok s2 =>
    match snaps with
    | [] => ⟨s2, [], false⟩
    | h :: _ => ⟨s2, [h.line], false⟩

/-- `updateStep` message handler (stackRecording.js:1024-1027): applies the
delivered step with no bounds check whatsoever. -/
def onUpdateStep (step : Int) (s : St) : Res :=
  updateCurrentStepAndUI step s

/-- `updateStackTrace` message handler (stackRecording.js:1029-1113), the
live-debugging replace path.  Nothing happens unless the message carries a
nonempty snapshot array.  On growth `currentStep` jumps to the new last
index; otherwise `currentStep` is left as it is (never clamped).  Then
`updateCurrentFrame` runs (throwing when `currentStep` is now out of
bounds), `updateLocalTimeline` runs again, and a highlight is emitted under
the guard `snapshots.length > 0 && currentStep < snapshots.length`. -/
def onUpdateStackTrace (osnaps : Option (List Snapshot)) (s : St) : Res :=
  match osnaps with
  | none => ⟨s, [], false⟩
  | some snaps =>
    if 0 < snaps.length then
      let s1 := { s with snapshots := snaps }
      let s2 :=
        if s.snapshots.length < snaps.length ∧ 0 < snaps.length then
          { s1 with currentStep := (snaps.length : Int) - 1 }
        else s1
      match updateCurrentFrame s2 with
      | Except.error _ => ⟨s2, [], true⟩
      | Except.ok s3 =>
        let s4 := updateLocalTimeline s3
        if 0 < s4.snapshots.length ∧ s4.currentStep < (s4.snapshots.length : Int) then
          match jsIdx s4.snapshots s4.currentStep with
          | none => ⟨s4, [], true⟩
          | some snap => ⟨s4, [snap.line], false⟩
        else ⟨s4, [], false⟩
    else ⟨s, [], false⟩

/-- `editorLineClick` message handler (stackRecording.js:1115-1133): filter
the timeline to the clicked line, take the chronologically first match, map
it back to its global index by `snapshot_id` equality, and navigate there. -/
def onEditorLineClick (line : Int) (s : St) : Res :=
  match s.snapshots.filter (fun t => t.line == line) with
  | [] => ⟨s, [], false⟩
  | first :: _ =>
    let i := findIndexI s.snapshots (fun t => t.snapshot_id == first.snapshot_id)
    if i ≠ -1 then updateCurrentStepAndUI i s else ⟨s, [], false⟩

/-- The spec's `SnapshotStore.current()` accessor read off the webview
state: the snapshot at `currentStep`, or none when not addressable. -/
def currentSnapshot (s : St) : Option Snapshot :=
  jsIdx s.snapshots s.currentStep

end StackRecording

/-- Lexicographic order on strings by code point, a Bool-valued comparator
for the default JS `Array.prototype.sort()` comparison used on the
variable-name columns.  (JS compares UTF-16 units; the orders agree on the
plain identifiers that occur as variable names.) -/
def strLeAux : List Char → List Char → Bool
  | [], _ => true
  | _ :: _, [] => false
  | a :: as, b :: bs =>
    if a.val < b.val then true else if b.val < a.val then false else strLeAux as bs

/-- String comparator on the underlying character data. -/
def strLe (a b : String) : Bool :=
  strLeAux a.data b.data

/-- Ordered insertion for `strSort`. -/
def strInsert (x : String) : List String → List String
  | [] => [x]
  | y :: ys => if strLe x y then x :: y :: ys else y :: strInsert x ys

/-- A sort producing the ascending order that `[...allVarNames].sort()`
yields on the (already deduplicated) column names. -/
def strSort (l : List String) : List String :=
  l.foldr strInsert []

namespace StackRecording

/-- Insertion into the `allVarNames` Set (stackRecording.js:1269-1276):
a JS Set keeps first-insertion order and ignores duplicates. -/
def addName (acc : List String) (n : String) : List String :=
  if acc.contains n then acc else acc ++ [n]

/-- The union of variable names over the local snapshots, in first-seen
order (stackRecording.js:1269-1276). -/
def allVarNames (localSnaps : List Snapshot) : List String :=
  localSnaps.foldl (fun acc snap => snap.locals.foldl (fun a kv => addName a kv.1) acc) []

/-- `const varNames = [...allVarNames].sort()` (stackRecording.js:1278). -/
def varNames (localSnaps : List Snapshot) : List String :=
  strSort (allVarNames localSnaps)

/-- `snapshot.locals[varName]` (stackRecording.js:1302). -/
def localsGet (locals : List (String × VarData)) (name : String) : Option VarData :=
  (locals.find? (fun kv => kv.1 == name)).map (fun kv => kv.2)

/-- `lastValues[varName]` (stackRecording.js:1309). -/
def lastGet (m : List (String × String)) (k : String) : Option String :=
  (m.find? (fun kv => kv.1 == k)).map (fun kv => kv.2)

/-- `lastValues[varName] = currentValue` (stackRecording.js:1312). -/
def lastSet (m : List (String × String)) (k v : String) : List (String × String) :=
  if (m.find? (fun kv => kv.1 == k)).isSome then
    m.map (fun kv => if kv.1 == k then (k, v) else kv)
  else m ++ [(k, v)]

/-- One table cell (stackRecording.js:1301-1318): `"-"` when the snapshot
lacks the variable; `"-"` when the value equals the last seen one; otherwise
the literal value, updating `lastValues`.  Note the absent marker and the
unchanged marker are the same string `"-"` in the source. -/
def cellFor (snap : Snapshot) (name : String) (lastValues : List (String × String)) :
    String × List (String × String) :=
  match localsGet snap.locals name with
  | none => ("-", lastValues)
  | some vd =>
    match lastGet lastValues name with
    | none => (vd.value, lastSet lastValues name vd.value)
    | some last =>
      if last == vd.value then ("-", lastValues)
      else (vd.value, lastSet lastValues name vd.value)

/-- One table row: the cells for each column in order, threading
`lastValues` left to right (the source's inner `varNames.forEach`). -/
def buildRow (names : List String) (snap : Snapshot) (lv : List (String × String)) :
    List String × List (String × String) :=
  names.foldl (fun acc name =>
    let c := cellFor snap name acc.2
    (acc.1 ++ [c.1], c.2)) ([], lv)

/-- All rows, threading `lastValues` top to bottom (the source's outer
`localSnapshots.forEach`). -/
def buildRowsAux (names : List String) : List Snapshot → List (String × String) → List (List String)
  | [], _ => []
  | snap :: rest, lv =>
    let r := buildRow names snap lv
    r.1 :: buildRowsAux names rest r.2

/-- `updateVariablesChangeTable` (stackRecording.js:1249-1327) reduced to
its data content: the matrix of cell strings (rows = local snapshots in
order, columns = sorted variable names).  The handler early-returns on an
empty local timeline. -/
def buildTable (localSnaps : List Snapshot) : List (List String) :=
  if localSnaps.length = 0 then []
  else buildRowsAux (varNames localSnaps) localSnaps []

end StackRecording

/-- One execution snapshot as consumed by `stackTrace.js` and the older
`part_006` variant, whose identifier field is named `id`.  The extra `ref`
field is an object-identity token: every snapshot object delivered to the
webview is a distinct JS object, so `===` on two snapshot expressions
compares these tokens (a state is well-formed when they are pairwise
distinct). -/
structure SnapshotR where
  ref : Nat
  id : Int
  line : Int
  locals : List (String × VarData)
deriving DecidableEq, Repr

namespace StackTraceJs

/-- Module-level mutable state of `stackTrace.js`. -/
structure St where
  snapshots : List SnapshotR
  currentStep : Int
  localSnapshots : List SnapshotR
  localStep : Int
deriving DecidableEq, Repr

/-- Handler outcome, as for the stackRecording variant. -/
structure Res where
  state : St
  msgs : List Int
  err : Bool
deriving DecidableEq, Repr

/-- `updateLocalTimeline` (stackTrace.js:237-266): as in stackRecording,
but matching on the `id` field; button flags are not modeled here since no
claim observes this variant's buttons. -/
def updateLocalTimeline (s : St) : St :=
  if s.snapshots.length = 0 ∨ (s.snapshots.length : Int) ≤ s.currentStep then s
  else
    match jsIdx s.snapshots s.currentStep with
    | none => s
    | some cur =>
      let ls := s.snapshots.filter (fun t => t.line == cur.line)
      let lstep := findIndexI ls (fun t => t.id == cur.id)
      { s with localSnapshots := ls, localStep := lstep }

/-- `updateCurrentFrame` (stackTrace.js:200-234). -/
def updateCurrentFrame (s : St) : Except Unit St :=
  if s.snapshots.length = 0 then Except.ok s
  else
    match jsIdx s.snapshots s.currentStep with
    | none => Except.error ()
    | some _ => Except.ok (updateLocalTimeline s)

/-- `updateCurrentStepAndUI` (stackTrace.js:122-136). -/
def updateCurrentStepAndUI (newStep : Int) (s : St) : Res :=
  let s1 := { s with currentStep := newStep }
  match updateCurrentFrame s1 with
  | Except.error _ => ⟨s1, [], true⟩
  | Except.ok s2 =>
    match jsIdx s2.snapshots s2.currentStep with
    | none => ⟨s2, [], true⟩
    | some snap => ⟨s2, [snap.line], false⟩

/-- Next-button listener (stackTrace.js:61-70). -/
def nextClick (s : St) : Res :=
  if s.currentStep < (s.snapshots.length : Int) - 1 then
    updateCurrentStepAndUI (s.currentStep + 1) s
  else ⟨s, [], false⟩

/-- `snapshots.findIndex(s => s.id === snapshot.id)` where `snapshot` may
be `undefined` (stackTrace.js:80, 96, 112): the arrow function dereferences
`snapshot.id` on its first invocation, so a nonempty array with an
`undefined` capture throws; an empty array never invokes the callback. -/
def findIndexById (l : List SnapshotR) (osnap : Option SnapshotR) : Except Unit Int :=
  match l, osnap with
  | [], _ => Except.ok (-1)
  | _ :: _, none => Except.error ()
  | l', some t => Except.ok (findIndexI l' (fun u => u.id == t.id))

/-- The local-to-global mapping block duplicated verbatim inside this
variant's local slider/prev/next listeners (stackTrace.js:78-85, 94-101,
110-117), run after `localStep` has already been mutated:
`snapshot = localSnapshots[localStep]`, find its global index by `id`
equality, and navigate there if found and different. -/
def localNavigate (s : St) : Res :=
  match findIndexById s.snapshots (jsIdx s.localSnapshots s.localStep) with
  | Except.error _ => ⟨s, [], true⟩
  | Except.ok g =>
    if g ≠ -1 ∧ g ≠ s.currentStep then updateCurrentStepAndUI g s
    else ⟨s, [], false⟩

/-- Local timeline slider `input` listener (stackTrace.js:73-87). -/
def localSliderInput (v : Int) (s : St) : Res :=
  if v ≠ s.localStep ∧ 0 < s.localSnapshots.length then
    localNavigate { s with localStep := v }
  else ⟨s, [], false⟩

/-- Local previous-button listener (stackTrace.js:90-103). -/
def localPrevClick (s : St) : Res :=
  if 0 < s.localStep ∧ 0 < s.localSnapshots.length then
    localNavigate { s with localStep := s.localStep - 1 }
  else ⟨s, [], false⟩

/-- Local next-button listener (stackTrace.js:106-119). -/
def localNextClick (s : St) : Res :=
  if s.localStep < (s.localSnapshots.length : Int) - 1 ∧ 0 < s.localSnapshots.length then
    localNavigate { s with localStep := s.localStep + 1 }
  else ⟨s, [], false⟩

/-- `setSnapshots` message handler (stackTrace.js:152-170). -/
def onSetSnapshots (snaps : List SnapshotR) (s : St) : Res :=
  let s1 := { s with snapshots := snaps, currentStep := 0 }
  match updateCurrentFrame s1 with
  | Except.error _ => ⟨s1, [], true⟩
  | Except.ok s2 =>
    match snaps with
    | [] => ⟨s2, [], false⟩
    | h :: _ => ⟨s2, [h.line], false⟩

/-- `editorLineClick` message handler (stackTrace.js:177-195), identical in
shape to the stackRecording one but matching on `id`. -/
def onEditorLineClick (line : Int) (s : St) : Res :=
  match s.snapshots.filter (fun t => t.line == line) with
  | [] => ⟨s, [], false⟩
  | first :: _ =>
    let i := findIndexI s.snapshots (fun t => t.id == first.id)
    if i ≠ -1 then updateCurrentStepAndUI i s else ⟨s, [], false⟩

/-- The spec's `SnapshotStore.current()` accessor over this variant. -/
def currentSnapshot (s : St) : Option SnapshotR :=
  jsIdx s.snapshots s.currentStep

end StackTraceJs

namespace Part006

/-- Module-level mutable state of the unnamed older variant (`part_006`).
`localSnapshots` is declared there (line 28) but never assigned anywhere in
the script; `localSliderMax`/`localSliderValue` model the DOM slider
attributes written by its `updateLocalTimeline`. -/
structure St where
  snapshots : List SnapshotR
  currentStep : Int
  localStep : Int
  localSnapshots : List SnapshotR
  localSliderMax : Int
  localSliderValue : Int
deriving DecidableEq, Repr

/-- Handler outcome for this variant (it posts `sliderChange`/`updateLine`
messages rather than highlights; no claim observes them, so only state and
the thrown flag are kept). -/
structure Res where
  state : St
  err : Bool
deriving DecidableEq, Repr

/-- `updateLocalTimeline(step)` (part_006:293-319): recomputes the per-line
sublist into a local constant `lineSnapshots` (not into the module-level
`localSnapshots`!) and only writes the slider bounds/position. -/
def updateLocalTimeline (step : Int) (s : St) : St :=
  match jsIdx s.snapshots step with
  | none => s
  | some cur =>
    let lineSnapshots := s.snapshots.filter (fun t => t.line == cur.line)
    let currentIndex := findIndexI lineSnapshots (fun t => t.id == cur.id)
    { s with localSliderMax := (lineSnapshots.length : Int) - 1,
             localSliderValue := currentIndex }

/-- `updateCurrentFrame` (part_006:215-261). -/
def updateCurrentFrame (s : St) : Except Unit St :=
  if s.snapshots.length = 0 then Except.ok s
  else
    match jsIdx s.snapshots s.currentStep with
    | none => Except.error ()
    | some _ => Except.ok (updateLocalTimeline s.currentStep s)

/-- The local-to-global block duplicated in this variant's local
slider/prev/next listeners (part_006:94-105, 119-130, 145-156):
`snapshots.findIndex(s => s === localSnapshots[localStep])` — comparison by
object identity (`===`), not by `id`; `x === undefined` is simply false for
every object, so an unset `localSnapshots` entry yields `-1` silently. -/
def localNavigate (s : St) : Res :=
  let g := findIndexI s.snapshots (fun u =>
    match jsIdx s.localSnapshots s.localStep with
    | none => false
    | some t => u.ref == t.ref)
  if g ≠ -1 ∧ g ≠ s.currentStep then
    let s2 := { s with currentStep := g }
    match updateCurrentFrame s2 with
    | Except.error _ => ⟨s2, true⟩
    | Except.ok s3 => ⟨s3, false⟩
  else ⟨s, false⟩

/-- Local slider `input` listener (part_006:87-108). -/
def localSliderInput (v : Int) (s : St) : Res :=
  if v ≠ s.localStep then
    localNavigate { s with localStep := v }
  else ⟨s, false⟩

/-- Local previous-button listener (part_006:111-133). -/
def localPrevClick (s : St) : Res :=
  if 0 < s.localStep then
    localNavigate { s with localStep := s.localStep - 1, localSliderValue := s.localStep - 1 }
  else ⟨s, false⟩

/-- Local next-button listener (part_006:136-159), guarded by the DOM
slider `max` attribute. -/
def localNextClick (s : St) : Res :=
  if s.localStep < s.localSliderMax then
    localNavigate { s with localStep := s.localStep + 1, localSliderValue := s.localStep + 1 }
  else ⟨s, false⟩

/-- `setSnapshots` message handler (part_006:167-179); it ends with an
unguarded `snapshots[0].line` dereference for the initial highlight. -/
def onSetSnapshots (snaps : List SnapshotR) (s : St) : Res :=
  let s1 := { s with snapshots := snaps, currentStep := 0 }
  match updateCurrentFrame s1 with
  | Except.error _ => ⟨s1, true⟩
  | Except.ok s2 =>
    let s3 := updateLocalTimeline 0 s2
    match jsIdx s3.snapshots 0 with
    | none => ⟨s3, true⟩
    | some _ => ⟨s3, false⟩

/-- `editorLineClick` message handler (part_006:193-210): here the first
matching index is found directly by `findIndex` on the `line` field. -/
def onEditorLineClick (line : Int) (s : St) : Res :=
  let i := findIndexI s.snapshots (fun t => t.line == line)
  if i ≠ -1 then
    let s2 := { s with currentStep := i }
    match updateCurrentFrame s2 with
    | Except.error _ => ⟨s2, true⟩
    | Except.ok s3 =>
      match jsIdx s3.snapshots s3.currentStep with
      | none => ⟨s3, true⟩
      | some _ => ⟨s3, false⟩
  else ⟨s, false⟩

end Part006

/-- Modelled from the spec (§4.2/§4.3 `goToLocalStep`): the mapping a
variant is claimed to use — take the local entry at the selected local
index and find its global index by snapshot `id` equality; `-1` when the
local index or the id cannot be resolved.  This is the spec-side definition
the code variants are compared against for the id-equality claim. -/
def specLocalToGlobalIndex (globalSnaps localSnaps : List SnapshotR) (k : Int) : Int :=
  match jsIdx localSnaps k with
  | none => -1
  | some t => findIndexI globalSnaps (fun u => u.id == t.id)

/-- Modelled from the spec (§4.2 `LocalTimelineProjector`): the per-line
ordered subsequence of the global timeline. -/
def specProject (globalSnaps : List SnapshotR) (line : Int) : List SnapshotR :=
  globalSnaps.filter (fun t => t.line == line)

namespace StackRecording

/-- The user-driven operations of the canonical variant (button clicks,
slider drags, editor line clicks) together with a wholesale load — the
operation alphabet over which the amended bounds invariant is stated. -/
inductive NavOp where
  | slider (v : Int)
  | prev
  | next
  | localSlider (v : Int)
  | localPrev
  | localNext
  | lineClick (line : Int)
  | load (snaps : List Snapshot)

/-- Dispatch one operation to its handler. -/
def NavOp.apply : NavOp → St → Res
  | NavOp.slider v, s => sliderInput v s
  | NavOp.prev, s => prevClick s
  | NavOp.next, s => nextClick s
  | NavOp.localSlider v, s => localSliderInput v s
  | NavOp.localPrev, s => localPrevClick s
  | NavOp.localNext, s => localNextClick s
  | NavOp.lineClick l, s => onEditorLineClick l s
  | NavOp.load snaps, s => onSetSnapshots snaps s

/-- Run a sequence of operations; a thrown `TypeError` escapes one event
listener but the webview (and its mutated state) survives, so the next
operation starts from the surviving state. -/
def runOps (ops : List NavOp) (s : St) : St :=
  ops.foldl (fun st op => (NavOp.apply op st).state) s

/-- The bounds invariant: whenever the timeline is nonempty the global
cursor addresses a real entry. -/
def SafeInv (s : St) : Prop :=
  s.snapshots ≠ [] → 0 ≤ s.currentStep ∧ s.currentStep < (s.snapshots.length : Int)

end StackRecording
/-- Concrete snapshots used to evaluate the handlers at explicit inputs. -/
def snapA : Snapshot := ⟨1, 10, []⟩

/-- Second concrete snapshot. -/
def snapB : Snapshot := ⟨2, 20, []⟩

/-- Third concrete snapshot, sharing `snapA`'s line. -/
def snapC : Snapshot := ⟨3, 10, []⟩

/-- The five-snapshot timeline with lines `[3, 7, 3, 9, 3]` named in the
first-occurrence claim. -/
def lineSnaps : List Snapshot :=
  [⟨1, 3, []⟩, ⟨2, 7, []⟩, ⟨3, 3, []⟩, ⟨4, 9, []⟩, ⟨5, 3, []⟩]

/-- The freshly initialized webview state (all module variables at their
declared initial values). -/
def st0 : StackRecording.St := ⟨[], 0, [], 0, false, false⟩

/-- A two-snapshot state at step 0. -/
def stAB : StackRecording.St := ⟨[snapA, snapB], 0, [], 0, false, false⟩

/-- A three-snapshot state positioned on the last step, as produced by
loading three snapshots and navigating to the end. -/
def stABC2 : StackRecording.St :=
  (StackRecording.runOps [StackRecording.NavOp.next, StackRecording.NavOp.next]
    (StackRecording.onSetSnapshots [snapA, snapB, snapC] st0).state)

/-- The `[3, 7, 3, 9, 3]` timeline loaded into a fresh webview. -/
def stLines : StackRecording.St :=
  (StackRecording.onSetSnapshots lineSnaps st0).state

/-- Snapshots on one shared line, for the stale-reference scenario. -/
def snapL1 : Snapshot := ⟨1, 7, []⟩

/-- Second same-line snapshot. -/
def snapL2 : Snapshot := ⟨2, 7, []⟩

/-- Third same-line snapshot. -/
def snapL3 : Snapshot := ⟨3, 7, []⟩

/-- The replacement snapshot whose id shares nothing with the others. -/
def snapL9 : Snapshot := ⟨9, 7, []⟩

/-- Stale-reference scenario, step 1: load three same-line snapshots. -/
def exC8St1 : StackRecording.St :=
  (StackRecording.onSetSnapshots [snapL1, snapL2, snapL3] st0).state

/-- Stale-reference scenario, step 2: navigate to the second snapshot. -/
def exC8St2 : StackRecording.St := (StackRecording.nextClick exC8St1).state

/-- Stale-reference scenario, step 3: a live replace shrinks the timeline
to one snapshot with a fresh id, leaving the local timeline stale. -/
def exC8St3 : StackRecording.St :=
  (StackRecording.onUpdateStackTrace (some [snapL9]) exC8St2).state

/-- A state whose local timeline is populated, positioned to select the
second local entry on the next local-next click. -/
def snapE1 : Snapshot := ⟨1, 5, []⟩

/-- Second entry of the populated local timeline. -/
def snapE2 : Snapshot := ⟨2, 5, []⟩

/-- State for exercising the local-to-global id mapping, as reached after
loading two same-line snapshots (local timeline recomputed by
`updateLocalTimeline`) and with `localStep` already advanced to 1 by the
local-next listener. -/
def stLoc : StackRecording.St := ⟨[snapE1, snapE2], 0, [snapE1, snapE2], 1, false, false⟩

/-- Change-table scenario, snapshot 0: variable `v` present with value 42. -/
def varSnap0 : Snapshot := ⟨1, 5, [("v", ⟨"42", "int"⟩)]⟩

/-- Change-table scenario, snapshot 1: variable `v` absent. -/
def varSnap1 : Snapshot := ⟨2, 5, []⟩

/-- Change-table scenario, snapshot 2: variable `v` present again with the
same value 42. -/
def varSnap2 : Snapshot := ⟨3, 5, [("v", ⟨"42", "int"⟩)]⟩

/-- Two same-line snapshot objects for the older variant (distinct `ref`
identity tokens, distinct ids). -/
def refA : SnapshotR := ⟨0, 1, 5, []⟩

/-- Second object for the older variant. -/
def refB : SnapshotR := ⟨1, 2, 5, []⟩

/-- Freshly initialized state of the older variant. -/
def p6St0 : Part006.St := ⟨[], 0, 0, [], 0, 0⟩

/-- Older-variant state after `setSnapshots` with the two snapshots. -/
def p6StAB : Part006.St := (Part006.onSetSnapshots [refA, refB] p6St0).state
/-- The `[3, 7, 3, 9, 3]` timeline as snapshot objects of the older
variant (distinct refs and ids). -/
def lineSnapsR : List SnapshotR :=
  [⟨0, 1, 3, []⟩, ⟨1, 2, 7, []⟩, ⟨2, 3, 3, []⟩, ⟨3, 4, 9, []⟩, ⟨4, 5, 3, []⟩]

/-- The older-variant state holding that timeline at step 0. -/
def p6StLines : Part006.St := ⟨lineSnapsR, 0, 0, [], 0, 0⟩

/-- stackTrace-variant state for exercising its local-to-global id
mapping: two same-line snapshots with the local timeline populated (as
recomputed by its `updateLocalTimeline`) and `localStep` already advanced
to 1 by the local-next listener. -/
def tStLoc : StackTraceJs.St := ⟨[refA, refB], 0, [refA, refB], 1⟩

theorem jsIdx_nil {α : Type} (i : Int) : jsIdx ([] : List α) i = none := by
  unfold jsIdx
  split <;> simp

theorem jsIdx_natCast {α : Type} (l : List α) (k : Nat) : jsIdx l (k : Int) = l.get? k := by
  unfold jsIdx
  rw [if_neg (by omega), Int.toNat_natCast]

theorem jsIdx_eq_some {α : Type} {l : List α} {i : Int} {x : α} (h : jsIdx l i = some x) :
    0 ≤ i ∧ i.toNat < l.length ∧ l.get? i.toNat = some x := by
  unfold jsIdx at h
  by_cases hi : i < 0
  · rw [if_pos hi] at h
    exact absurd h (by simp)
  · rw [if_neg hi] at h
    refine ⟨by omega, ?_, h⟩
    rw [List.get?_eq_getElem?] at h
    exact (List.getElem?_eq_some.mp h).1

theorem jsIdx_of_bounds {α : Type} {l : List α} {i : Int} (h0 : 0 ≤ i)
    (h1 : i < (l.length : Int)) : ∃ x, jsIdx l i = some x ∧ l.get? i.toNat = some x := by
  have hlt : i.toNat < l.length := by omega
  rw [List.get?_eq_getElem?]
  refine ⟨l[i.toNat], ?_, by rw [List.getElem?_eq_getElem hlt]⟩
  unfold jsIdx
  rw [if_neg (by omega), List.get?_eq_getElem?, List.getElem?_eq_getElem hlt]

theorem findIdx_minimal {α : Type} (l : List α) (p : α → Bool) :
    ∀ j < l.findIdx p, ∀ y, l.get? j = some y → p y = false := by
  induction l with
  | nil => intro j hj; simp [List.findIdx_nil] at hj
  | cons a as ih =>
    intro j hj y hy
    rw [List.findIdx_cons] at hj
    by_cases hpa : p a
    · rw [hpa] at hj; simp at hj
    · rw [Bool.not_eq_true] at hpa
      rw [hpa] at hj
      simp only [cond_false] at hj
      cases j with
      | zero => simp at hy; rw [← hy]; exact hpa
      | succ m =>
        rw [List.get?_cons_succ] at hy
        exact ih m (by omega) y hy

theorem findIdx_get?_of_lt {α : Type} {l : List α} {p : α → Bool}
    (h : l.findIdx p < l.length) :
    ∃ x, l.get? (l.findIdx p) = some x ∧ p x = true := by
  refine ⟨l[l.findIdx p], ?_, List.findIdx_getElem⟩
  rw [List.get?_eq_getElem?, List.getElem?_eq_getElem h]

theorem findIdx_eq_of_minimal {α : Type} {l : List α} {p : α → Bool} {k : Nat} {x : α}
    (hx : l.get? k = some x) (hpx : p x = true)
    (hmin : ∀ j < k, ∀ y, l.get? j = some y → p y = false) :
    l.findIdx p = k := by
  induction l generalizing k with
  | nil => simp at hx
  | cons a as ih =>
    cases k with
    | zero =>
      simp at hx
      rw [List.findIdx_cons, hx, hpx]
      rfl
    | succ m =>
      rw [List.get?_cons_succ] at hx
      have hpa : p a = false := hmin 0 (by omega) a rfl
      rw [List.findIdx_cons, hpa]
      simp only [cond_false]
      have : as.findIdx p = m := by
        refine ih hx ?_
        intro j hj y hy
        exact hmin (j + 1) (by omega) y (by rw [List.get?_cons_succ]; exact hy)
      omega

theorem findIndexI_of_exists {α : Type} {l : List α} {p : α → Bool}
    (h : ∃ x ∈ l, p x = true) :
    findIndexI l p = (l.findIdx p : Int) ∧ l.findIdx p < l.length := by
  have hlt := List.findIdx_lt_length_of_exists h
  unfold findIndexI
  rw [if_pos hlt]
  exact ⟨rfl, hlt⟩

theorem findIndexI_none {α : Type} {l : List α} {p : α → Bool}
    (h : ∀ x ∈ l, p x = false) : findIndexI l p = -1 := by
  unfold findIndexI
  rw [if_neg]
  rw [List.findIdx_eq_length.mpr h]
  omega

theorem findIndexI_cases {α : Type} (l : List α) (p : α → Bool) :
    findIndexI l p = -1 ∨
    ∃ k : Nat, findIndexI l p = (k : Int) ∧ k < l.length ∧
      ∃ x, l.get? k = some x ∧ p x = true := by
  unfold findIndexI
  by_cases h : l.findIdx p < l.length
  · right
    refine ⟨l.findIdx p, by rw [if_pos h], h, findIdx_get?_of_lt h⟩
  · left
    rw [if_neg h]

theorem findIdx_id_of_get? {l : List Snapshot} {n : Nat} {x : Snapshot}
    (hn : (l.map Snapshot.snapshot_id).Nodup) (hx : l.get? n = some x) :
    l.findIdx (fun u => u.snapshot_id == x.snapshot_id) = n := by
  induction l generalizing n with
  | nil => simp at hx
  | cons a as ih =>
    rw [List.map_cons, List.nodup_cons] at hn
    cases n with
    | zero =>
      simp at hx
      rw [List.findIdx_cons, hx]
      simp
    | succ m =>
      rw [List.get?_cons_succ] at hx
      have hmem : x ∈ as := List.get?_mem hx
      have hane : (a.snapshot_id == x.snapshot_id) = false := by
        rw [beq_eq_false_iff_ne]
        intro hEq
        exact hn.1 (hEq ▸ List.mem_map_of_mem Snapshot.snapshot_id hmem)
      rw [List.findIdx_cons, hane]
      simp only [cond_false]
      rw [ih hn.2 hx]


namespace StackRecording

theorem updateLocalTimeline_snapshots (s : St) :
    (updateLocalTimeline s).snapshots = s.snapshots := by
  unfold updateLocalTimeline
  split
  · rfl
  · cases jsIdx s.snapshots s.currentStep <;> rfl

theorem updateLocalTimeline_currentStep (s : St) :
    (updateLocalTimeline s).currentStep = s.currentStep := by
  unfold updateLocalTimeline
  split
  · rfl
  · cases jsIdx s.snapshots s.currentStep <;> rfl

theorem updateLocalTimeline_of_some (s : St) {snap : Snapshot}
    (h : jsIdx s.snapshots s.currentStep = some snap) :
    (updateLocalTimeline s).localSnapshots =
      s.snapshots.filter (fun t => t.line == snap.line) ∧
    (updateLocalTimeline s).localStep =
      findIndexI (s.snapshots.filter (fun t => t.line == snap.line))
        (fun t => t.snapshot_id == snap.snapshot_id) := by
  obtain ⟨h0, h1, _⟩ := jsIdx_eq_some h
  unfold updateLocalTimeline
  rw [if_neg (by push_neg; constructor <;> omega), h]
  exact ⟨rfl, rfl⟩

theorem updateCurrentFrame_empty {s : St} (h0 : s.snapshots.length = 0) :
    updateCurrentFrame s = Except.ok s := by
  unfold updateCurrentFrame
  rw [if_pos h0]

theorem updateCurrentFrame_some {s : St} {snap : Snapshot}
    (hs : jsIdx s.snapshots s.currentStep = some snap) :
    updateCurrentFrame s = Except.ok (updateLocalTimeline s) := by
  have h0 : s.snapshots.length ≠ 0 := by
    obtain ⟨_, h1, _⟩ := jsIdx_eq_some hs
    omega
  unfold updateCurrentFrame
  rw [if_neg h0, hs]

theorem updateCurrentFrame_none {s : St} (h0 : s.snapshots.length ≠ 0)
    (hn : jsIdx s.snapshots s.currentStep = none) :
    updateCurrentFrame s = Except.error () := by
  unfold updateCurrentFrame
  rw [if_neg h0, hn]

theorem updateCurrentFrame_ok_preserves {s s2 : St}
    (hf : updateCurrentFrame s = Except.ok s2) :
    s2.snapshots = s.snapshots ∧ s2.currentStep = s.currentStep := by
  unfold updateCurrentFrame at hf
  by_cases h0 : s.snapshots.length = 0
  · rw [if_pos h0] at hf
    simp only [Except.ok.injEq] at hf
    subst hf
    exact ⟨rfl, rfl⟩
  · rw [if_neg h0] at hf
    cases hj : jsIdx s.snapshots s.currentStep with
    | none => rw [hj] at hf; cases hf
    | some snap =>
      rw [hj] at hf
      simp only [Except.ok.injEq] at hf
      subst hf
      exact ⟨updateLocalTimeline_snapshots _, updateLocalTimeline_currentStep _⟩

theorem ucsau_eq (t : Int) (s : St) :
    updateCurrentStepAndUI t s =
      match updateCurrentFrame { s with currentStep := t } with
      | Except.error _ => ⟨{ s with currentStep := t }, [], true⟩
      | Except.ok s2 =>
        match jsIdx s2.snapshots s2.currentStep with
        | none => ⟨s2, [], true⟩
        | some snap => ⟨s2, [snap.line], false⟩ := rfl

theorem ucsau_state_spec (t : Int) (s : St) :
    (updateCurrentStepAndUI t s).state.snapshots = s.snapshots ∧
    (updateCurrentStepAndUI t s).state.currentStep = t := by
  rw [ucsau_eq]
  cases hf : updateCurrentFrame { s with currentStep := t } with
  | error e => exact ⟨rfl, rfl⟩
  | ok s2 =>
    dsimp only
    have hs2 := updateCurrentFrame_ok_preserves hf
    cases hj2 : jsIdx s2.snapshots s2.currentStep with
    | none => exact hs2
    | some snap => exact hs2

theorem ucsau_ok_spec (t : Int) (s : St)
    (h : (updateCurrentStepAndUI t s).err = false) :
    ∃ snap, jsIdx s.snapshots t = some snap ∧
      updateCurrentStepAndUI t s =
        ⟨updateLocalTimeline { s with currentStep := t }, [snap.line], false⟩ := by
  rw [ucsau_eq] at h ⊢
  by_cases h0 : ({ s with currentStep := t } : St).snapshots.length = 0
  · rw [updateCurrentFrame_empty h0] at h
    have hj : jsIdx ({ s with currentStep := t } : St).snapshots
        ({ s with currentStep := t } : St).currentStep = none := by
      have he : ({ s with currentStep := t } : St).snapshots = [] :=
        List.length_eq_zero.mp h0
      rw [he]
      exact jsIdx_nil _
    dsimp only at h
    rw [hj] at h
    simp at h
  · cases hj : jsIdx ({ s with currentStep := t } : St).snapshots
        ({ s with currentStep := t } : St).currentStep with
    | none =>
      rw [updateCurrentFrame_none h0 hj] at h
      simp at h
    | some snap =>
      have hj2 : jsIdx (updateLocalTimeline { s with currentStep := t }).snapshots
          (updateLocalTimeline { s with currentStep := t }).currentStep = some snap := by
        rw [updateLocalTimeline_snapshots, updateLocalTimeline_currentStep]
        exact hj
      refine ⟨snap, rfl, ?_⟩
      rw [updateCurrentFrame_some hj]
      dsimp only
      rw [hj2]

theorem ucsau_ok_of_bounds (s : St) (k : Nat) (hk : k < s.snapshots.length) :
    (updateCurrentStepAndUI (k : Int) s).err = false := by
  obtain ⟨snap, hj, hg⟩ := jsIdx_of_bounds (l := s.snapshots) (i := (k : Int))
    (by omega) (by omega)
  have hj' : jsIdx ({ s with currentStep := (k : Int) } : St).snapshots
      ({ s with currentStep := (k : Int) } : St).currentStep = some snap := hj
  rw [ucsau_eq, updateCurrentFrame_some hj']
  have hj2 : jsIdx (updateLocalTimeline { s with currentStep := (k : Int) }).snapshots
      (updateLocalTimeline { s with currentStep := (k : Int) }).currentStep = some snap := by
    rw [updateLocalTimeline_snapshots, updateLocalTimeline_currentStep]
    exact hj'
  dsimp only
  rw [hj2]

theorem onSetSnapshots_eq (snaps : List Snapshot) (s : St) :
    onSetSnapshots snaps s =
      match updateCurrentFrame { s with snapshots := snaps, currentStep := 0 } with
      | Except.error _ => ⟨{ s with snapshots := snaps, currentStep := 0 }, [], true⟩
      | Except.ok s2 =>
        match snaps with
        | [] => ⟨s2, [], false⟩
        | h :: _ => ⟨s2, [h.line], false⟩ := rfl

theorem onSetSnapshots_state (snaps : List Snapshot) (s : St) :
    (onSetSnapshots snaps s).state.snapshots = snaps ∧
    (onSetSnapshots snaps s).state.currentStep = 0 := by
  rw [onSetSnapshots_eq]
  cases hf : updateCurrentFrame { s with snapshots := snaps, currentStep := 0 } with
  | error e => exact ⟨rfl, rfl⟩
  | ok s2 =>
    dsimp only
    have hs2 := updateCurrentFrame_ok_preserves hf
    cases snaps with
    | nil => exact hs2
    | cons a as => exact hs2

theorem findIndexById_ok_cases (l : List Snapshot) (osnap : Option Snapshot) (g : Int)
    (h : findIndexById l osnap = Except.ok g) :
    g = -1 ∨ ∃ k : Nat, g = (k : Int) ∧ k < l.length ∧
      ∃ sel x, osnap = some sel ∧ l.get? k = some x ∧
        x.snapshot_id = sel.snapshot_id := by
  unfold findIndexById at h
  cases l with
  | nil =>
    cases osnap <;> simp_all
  | cons a as =>
    cases osnap with
    | none => simp at h
    | some t =>
      simp only [Except.ok.injEq] at h
      rcases findIndexI_cases (a :: as) (fun u => u.snapshot_id == t.snapshot_id) with hc | hc
      · left; omega
      · obtain ⟨k, hk1, hk2, x, hx, hpx⟩ := hc
        right
        exact ⟨k, by omega, hk2, t, x, rfl, hx, beq_iff_eq.mp hpx⟩

end StackRecording

theorem jsIdx_none_iff {α : Type} (l : List α) (i : Int) :
    jsIdx l i = none ↔ (i < 0 ∨ (l.length : Int) ≤ i) := by
  unfold jsIdx
  by_cases hi : i < 0
  · simp [hi]
  · rw [if_neg hi, List.get?_eq_getElem?, List.getElem?_eq_none_iff]
    constructor
    · intro hh; right; omega
    · intro hh
      rcases hh with hh | hh
      · exact absurd hh hi
      · omega

theorem filter_head_spec {α : Type} {l : List α} {p : α → Bool} {x : α} {xs : List α}
    (h : l.filter p = x :: xs) :
    l.get? (l.findIdx p) = some x ∧ p x = true ∧ l.findIdx p < l.length := by
  induction l generalizing xs with
  | nil => simp at h
  | cons a as ih =>
    rw [List.filter_cons] at h
    by_cases hpa : p a
    · rw [if_pos hpa] at h
      injection h with h1 h2
      subst h1
      have hz : (a :: as).findIdx p = 0 := by
        simp [List.findIdx_cons, hpa]
      rw [hz]
      exact ⟨rfl, hpa, by simp⟩
    · rw [if_neg hpa] at h
      obtain ⟨g1, g2, g3⟩ := ih h
      rw [Bool.not_eq_true] at hpa
      simp only [List.findIdx_cons, hpa, cond_false]
      refine ⟨by rw [List.get?_cons_succ]; exact g1, g2, ?_⟩
      simp only [List.length_cons]
      omega

namespace StackRecording

theorem onEditorLineClick_spec (s : St) (L : Int)
    (hn : (s.snapshots.map Snapshot.snapshot_id).Nodup)
    (hex : ∃ t ∈ s.snapshots, t.line = L) :
    (onEditorLineClick L s).err = false ∧
    (onEditorLineClick L s).state.currentStep =
      (s.snapshots.findIdx (fun t => t.line == L) : Int) ∧
    (onEditorLineClick L s).state.snapshots = s.snapshots := by
  obtain ⟨t0, ht0mem, ht0line⟩ := hex
  have hfne : s.snapshots.filter (fun t => t.line == L) ≠ [] := by
    rw [ne_eq, List.filter_eq_nil_iff]
    push_neg
    exact ⟨t0, ht0mem, by simp [ht0line]⟩
  unfold onEditorLineClick
  cases hf : s.snapshots.filter (fun t => t.line == L) with
  | nil => exact absurd hf hfne
  | cons first rest =>
    obtain ⟨hg1, hg2, hg3⟩ := filter_head_spec hf
    have hfi : s.snapshots.findIdx (fun u => u.snapshot_id == first.snapshot_id) =
        s.snapshots.findIdx (fun t => t.line == L) := findIdx_id_of_get? hn hg1
    have hI : findIndexI s.snapshots (fun u => u.snapshot_id == first.snapshot_id) =
        ((s.snapshots.findIdx (fun t => t.line == L)) : Int) := by
      unfold findIndexI
      rw [hfi, if_pos hg3]
    dsimp only
    rw [hI, if_pos (by omega)]
    have herr := ucsau_ok_of_bounds s (s.snapshots.findIdx (fun t => t.line == L)) hg3
    have hst := ucsau_state_spec ((s.snapshots.findIdx (fun t => t.line == L) : Int)) s
    exact ⟨herr, hst.2, hst.1⟩

theorem SafeInv_ucsau_inbounds {s : St} {t : Int} (h0 : 0 ≤ t)
    (h1 : t < (s.snapshots.length : Int)) :
    SafeInv (updateCurrentStepAndUI t s).state := by
  obtain ⟨hsn, hcs⟩ := ucsau_state_spec t s
  intro hne
  rw [hsn, hcs]
  exact ⟨h0, h1⟩

theorem SafeInv_ucsau_of (s : St) (t : Int)
    (ht : s.snapshots ≠ [] → 0 ≤ t ∧ t < (s.snapshots.length : Int)) :
    SafeInv (updateCurrentStepAndUI t s).state := by
  obtain ⟨hsn, hcs⟩ := ucsau_state_spec t s
  intro hne
  rw [hsn] at hne
  obtain ⟨a, b⟩ := ht hne
  rw [hsn, hcs]
  exact ⟨a, b⟩

theorem SafeInv_localNavigate (s : St) (h : SafeInv s) :
    SafeInv (localNavigate s).state := by
  unfold localNavigate
  cases hfb : findIndexById s.snapshots (jsIdx s.localSnapshots s.localStep) with
  | error e => exact h
  | ok g =>
    dsimp only
    split
    · next hcond =>
      rcases findIndexById_ok_cases _ _ _ hfb with hg | ⟨k, hk1, hk2, _⟩
      · exact absurd hg hcond.1
      · subst hk1
        exact SafeInv_ucsau_inbounds (by omega) (by omega)
    · exact h

theorem SafeInv_lineClick (L : Int) (s : St) (h : SafeInv s) :
    SafeInv (onEditorLineClick L s).state := by
  unfold onEditorLineClick
  cases hf : s.snapshots.filter (fun t => t.line == L) with
  | nil => exact h
  | cons first rest =>
    dsimp only
    split
    · next hne =>
      rcases findIndexI_cases s.snapshots (fun t => t.snapshot_id == first.snapshot_id) with
        hc | ⟨k, hk1, hk2, _⟩
      · exact absurd hc hne
      · rw [hk1]
        exact SafeInv_ucsau_inbounds (by omega) (by omega)
    · exact h

theorem SafeInv_load (snaps : List Snapshot) (s : St) :
    SafeInv (onSetSnapshots snaps s).state := by
  obtain ⟨h1, h2⟩ := onSetSnapshots_state snaps s
  intro hne
  rw [h1] at hne
  rw [h1, h2]
  have hp : 0 < snaps.length := List.length_pos.mpr hne
  exact ⟨le_refl 0, by omega⟩

theorem SafeInv_apply (op : NavOp) (s : St) (h : SafeInv s) :
    SafeInv ((NavOp.apply op s).state) := by
  cases op with
  | slider v =>
    simp only [NavOp.apply]
    unfold sliderInput
    split
    · next hc => exact SafeInv_ucsau_of s v (fun _ => ⟨hc.2.1, hc.2.2⟩)
    · exact h
  | prev =>
    simp only [NavOp.apply]
    unfold prevClick
    split
    · next hc =>
      refine SafeInv_ucsau_of s _ (fun hne => ?_)
      have := h hne
      omega
    · exact h
  | next =>
    simp only [NavOp.apply]
    unfold nextClick
    split
    · next hc =>
      refine SafeInv_ucsau_of s _ (fun hne => ?_)
      have := h hne
      omega
    · exact h
  | localSlider v =>
    simp only [NavOp.apply]
    unfold localSliderInput
    split
    · exact SafeInv_localNavigate _ h
    · exact h
  | localPrev =>
    simp only [NavOp.apply]
    unfold localPrevClick
    split
    · exact SafeInv_localNavigate _ h
    · exact h
  | localNext =>
    simp only [NavOp.apply]
    unfold localNextClick
    split
    · exact SafeInv_localNavigate _ h
    · exact h
  | lineClick l =>
    simp only [NavOp.apply]
    exact SafeInv_lineClick l s h
  | load snaps =>
    simp only [NavOp.apply]
    exact SafeInv_load snaps s

theorem SafeInv_runOps (ops : List NavOp) (s : St) (h : SafeInv s) :
    SafeInv (runOps ops s) := by
  induction ops generalizing s with
  | nil => exact h
  | cons op rest ih => exact ih _ (SafeInv_apply op s h)

end StackRecording

namespace StackRecording

theorem localNavigate_id_property (s : St) (h : (localNavigate s).err = false) :
    (localNavigate s).state.currentStep = s.currentStep ∨
    ∃ sel snap, jsIdx s.localSnapshots s.localStep = some sel ∧
      jsIdx (localNavigate s).state.snapshots (localNavigate s).state.currentStep = some snap ∧
      snap.snapshot_id = sel.snapshot_id := by
  unfold localNavigate at h ⊢
  cases hfb : findIndexById s.snapshots (jsIdx s.localSnapshots s.localStep) with
  | error e =>
    rw [hfb] at h
    simp at h
  | ok g =>
    rw [hfb] at h
    dsimp only at h ⊢
    by_cases hcond : g ≠ -1 ∧ g ≠ s.currentStep
    · rw [if_pos hcond] at h ⊢
      rcases findIndexById_ok_cases _ _ _ hfb with hg | ⟨k, hk1, hk2, sel, x, hosnap, hx, hid⟩
      · exact absurd hg hcond.1
      · right
        subst hk1
        obtain ⟨snap2, hj, heq⟩ := ucsau_ok_spec _ _ h
        have hxeq : x = snap2 := by
          obtain ⟨_, _, hget⟩ := jsIdx_eq_some hj
          rw [Int.toNat_natCast] at hget
          rw [hget] at hx
          injection hx with hv
          exact hv.symm
        refine ⟨sel, snap2, hosnap, ?_, ?_⟩
        · rw [heq]
          dsimp only
          rw [updateLocalTimeline_snapshots, updateLocalTimeline_currentStep]
          exact hj
        · rw [← hxeq]
          exact hid
    · rw [if_neg hcond] at h ⊢
      left
      rfl

theorem onUpdateStackTrace_eq2 (s : St) (snaps : List Snapshot)
    (hlen : 0 < snaps.length) :
    onUpdateStackTrace (some snaps) s =
      (let s2 := if s.snapshots.length < snaps.length ∧ 0 < snaps.length
                 then { s with snapshots := snaps, currentStep := (snaps.length : Int) - 1 }
                 else { s with snapshots := snaps };
       match updateCurrentFrame s2 with
       | Except.error _ => ⟨s2, [], true⟩
       | Except.ok s3 =>
         let s4 := updateLocalTimeline s3
         if 0 < s4.snapshots.length ∧ s4.currentStep < (s4.snapshots.length : Int) then
           match jsIdx s4.snapshots s4.currentStep with
           | none => ⟨s4, [], true⟩
           | some snap => ⟨s4, [snap.line], false⟩
         else ⟨s4, [], false⟩) := by
  simp only [onUpdateStackTrace]
  rw [if_pos hlen]

end StackRecording

namespace Part006

theorem updateLocalTimeline_state (step : Int) (s : St) :
    (updateLocalTimeline step s).snapshots = s.snapshots ∧
    (updateLocalTimeline step s).currentStep = s.currentStep ∧
    (updateLocalTimeline step s).localStep = s.localStep ∧
    (updateLocalTimeline step s).localSnapshots = s.localSnapshots := by
  unfold updateLocalTimeline
  cases jsIdx s.snapshots step <;> exact ⟨rfl, rfl, rfl, rfl⟩

theorem ucfResolved_some {s : St} {snap : SnapshotR}
    (hs : jsIdx s.snapshots s.currentStep = some snap) :
    updateCurrentFrame s = Except.ok (updateLocalTimeline s.currentStep s) := by
  have h0 : s.snapshots.length ≠ 0 := by
    obtain ⟨_, h1, _⟩ := jsIdx_eq_some hs
    omega
  unfold updateCurrentFrame
  rw [if_neg h0, hs]

theorem localNavigate_inert (s : St) (h : s.localSnapshots = []) :
    localNavigate s = ⟨s, false⟩ := by
  unfold localNavigate
  have hg : findIndexI s.snapshots (fun u =>
      match jsIdx s.localSnapshots s.localStep with
      | none => false
      | some t => u.ref == t.ref) = -1 := by
    apply findIndexI_none
    intro x hx
    rw [h, jsIdx_nil]
  rw [hg, if_neg (by simp)]

theorem localNextClick_inert (s : St) (h : s.localSnapshots = []) :
    (localNextClick s).state.currentStep = s.currentStep := by
  unfold localNextClick
  split
  · have hnav := localNavigate_inert
      { s with localStep := s.localStep + 1, localSliderValue := s.localStep + 1 } h
    rw [hnav]
  · rfl

theorem localPrevClick_inert (s : St) (h : s.localSnapshots = []) :
    (localPrevClick s).state.currentStep = s.currentStep := by
  unfold localPrevClick
  split
  · have hnav := localNavigate_inert
      { s with localStep := s.localStep - 1, localSliderValue := s.localStep - 1 } h
    rw [hnav]
  · rfl

theorem localSliderInput_inert (v : Int) (s : St) (h : s.localSnapshots = []) :
    (localSliderInput v s).state.currentStep = s.currentStep := by
  unfold localSliderInput
  split
  · rw [localNavigate_inert { s with localStep := v } h]
  · rfl

theorem lineClickFirst_spec (s : St) (L : Int)
    (hex : ∃ t ∈ s.snapshots, t.line = L) :
    (onEditorLineClick L s).err = false ∧
    (onEditorLineClick L s).state.currentStep =
      (s.snapshots.findIdx (fun t => t.line == L) : Int) ∧
    (onEditorLineClick L s).state.snapshots = s.snapshots := by
  obtain ⟨t0, ht0mem, ht0line⟩ := hex
  have hex' : ∃ x ∈ s.snapshots, (fun t : SnapshotR => t.line == L) x = true :=
    ⟨t0, ht0mem, by simp [ht0line]⟩
  have hk : s.snapshots.findIdx (fun t => t.line == L) < s.snapshots.length :=
    List.findIdx_lt_length_of_exists hex'
  have hI : findIndexI s.snapshots (fun t => t.line == L) =
      ((s.snapshots.findIdx (fun t => t.line == L)) : Int) := by
    unfold findIndexI
    rw [if_pos hk]
  obtain ⟨snap, hj, _⟩ := jsIdx_of_bounds
    (l := s.snapshots) (i := ((s.snapshots.findIdx (fun t => t.line == L)) : Int))
    (by omega) (by omega)
  have hj' : jsIdx ({ s with currentStep :=
      ((s.snapshots.findIdx (fun t => t.line == L)) : Int) } : St).snapshots
      ({ s with currentStep :=
      ((s.snapshots.findIdx (fun t => t.line == L)) : Int) } : St).currentStep = some snap := hj
  unfold onEditorLineClick
  rw [hI, if_pos (by omega)]
  dsimp only
  rw [ucfResolved_some hj']
  dsimp only
  have hpres := updateLocalTimeline_state
    ((s.snapshots.findIdx (fun t => t.line == L)) : Int)
    ({ s with currentStep := ((s.snapshots.findIdx (fun t => t.line == L)) : Int) } : St)
  have hj2 : jsIdx (updateLocalTimeline
      ((s.snapshots.findIdx (fun t => t.line == L)) : Int)
      ({ s with currentStep := ((s.snapshots.findIdx (fun t => t.line == L)) : Int) } : St)).snapshots
      (updateLocalTimeline
      ((s.snapshots.findIdx (fun t => t.line == L)) : Int)
      ({ s with currentStep := ((s.snapshots.findIdx (fun t => t.line == L)) : Int) } : St)).currentStep
      = some snap := by
    rw [hpres.1, hpres.2.1]
    exact hj'
  rw [hj2]
  exact ⟨rfl, hpres.2.1, hpres.1⟩

end Part006

/-- C10: a live update (`updateStackTrace` message) whose snapshot array is
missing or empty changes nothing: the stored snapshots, `currentStep`,
`localSnapshots`, `localStep` and the button flags are left exactly as they
were, no highlight is emitted, and nothing is thrown — so a live update
never transitions a Positioned state to Empty. -/
theorem claim_C10_theorem (s : StackRecording.St) :
    StackRecording.onUpdateStackTrace none s = ⟨s, [], false⟩ ∧
    StackRecording.onUpdateStackTrace (some []) s = ⟨s, [], false⟩ :=
  ⟨rfl, rfl⟩

/-- C7: loading an empty snapshot array (the `setSnapshots` handler, in both
the stackRecording and the stackTrace variant) does not throw and leaves the
store non-dereferenceable: afterwards `current()` is none, a next-click is a
no-op, and an editor click on line 5 is a no-op. -/
theorem claim_C7_theorem (s : StackRecording.St) (s2 : StackTraceJs.St) :
    (StackRecording.onSetSnapshots [] s).err = false ∧
    (StackRecording.onSetSnapshots [] s).msgs = [] ∧
    StackRecording.currentSnapshot (StackRecording.onSetSnapshots [] s).state = none ∧
    StackRecording.nextClick (StackRecording.onSetSnapshots [] s).state =
      ⟨(StackRecording.onSetSnapshots [] s).state, [], false⟩ ∧
    StackRecording.onEditorLineClick 5 (StackRecording.onSetSnapshots [] s).state =
      ⟨(StackRecording.onSetSnapshots [] s).state, [], false⟩ ∧
    (StackTraceJs.onSetSnapshots [] s2).err = false ∧
    (StackTraceJs.onSetSnapshots [] s2).msgs = [] ∧
    StackTraceJs.currentSnapshot (StackTraceJs.onSetSnapshots [] s2).state = none ∧
    StackTraceJs.nextClick (StackTraceJs.onSetSnapshots [] s2).state =
      ⟨(StackTraceJs.onSetSnapshots [] s2).state, [], false⟩ ∧
    StackTraceJs.onEditorLineClick 5 (StackTraceJs.onSetSnapshots [] s2).state =
      ⟨(StackTraceJs.onSetSnapshots [] s2).state, [], false⟩ :=
  ⟨rfl, rfl, rfl, rfl, rfl, rfl, rfl, rfl, rfl, rfl⟩

/-- C1 counterexample: the `updateStep` message handler applies the
delivered step without any bounds check — in a two-snapshot state it writes
`currentStep = 5` and throws; and a shrinking live update leaves
`currentStep = 2` outside the new one-snapshot timeline and throws.  Both
violate "no-op and does not throw" and the bounds invariant. -/
theorem claim_C1_counterexample :
    (StackRecording.onUpdateStep 5 stAB).err = true ∧
    (StackRecording.onUpdateStep 5 stAB).state.currentStep = 5 ∧
    (StackRecording.onUpdateStackTrace (some [snapA]) stABC2).err = true ∧
    (StackRecording.onUpdateStackTrace (some [snapA]) stABC2).state.currentStep = 2 ∧
    (StackRecording.onUpdateStackTrace (some [snapA]) stABC2).state.snapshots = [snapA] := by
  decide

/-- C1 amended: the bounds invariant `0 <= currentStep < n` (for nonempty
timelines) is preserved by every sequence of user-driven operations — the
global slider, prev/next, the local slider and local prev/next, editor line
clicks, and wholesale loads.  It is not preserved by the unvalidated
`updateStep` message nor by shrinking live updates, which can write an
out-of-bounds step and throw (see the counterexample). -/
theorem claim_C1_theorem (ops : List StackRecording.NavOp) (s : StackRecording.St)
    (h : StackRecording.SafeInv s) :
    StackRecording.SafeInv (StackRecording.runOps ops s) :=
  StackRecording.SafeInv_runOps ops s h

/-- C1 witness: the invariant holds concretely after a four-operation
sequence from a loaded three-snapshot state. -/
theorem claim_C1_witness :
    StackRecording.SafeInv (StackRecording.runOps
      [StackRecording.NavOp.next, StackRecording.NavOp.localNext,
       StackRecording.NavOp.lineClick 10, StackRecording.NavOp.prev] stABC2) :=
  claim_C1_theorem _ stABC2 (by unfold StackRecording.SafeInv; decide)

/-- C5: after every successful navigation (`updateCurrentStepAndUI`
returning without a throw), the snapshot at `currentStep` is a member of
the recomputed local timeline — the global sequence filtered in order to
entries sharing its line — and `localStep` is a valid index there whose
entry carries the same `snapshot_id`. -/
theorem claim_C5_theorem (t : Int) (s : StackRecording.St)
    (h : (StackRecording.updateCurrentStepAndUI t s).err = false) :
    ∃ snap,
      jsIdx (StackRecording.updateCurrentStepAndUI t s).state.snapshots
        (StackRecording.updateCurrentStepAndUI t s).state.currentStep = some snap ∧
      snap ∈ (StackRecording.updateCurrentStepAndUI t s).state.localSnapshots ∧
      (StackRecording.updateCurrentStepAndUI t s).state.localSnapshots =
        (StackRecording.updateCurrentStepAndUI t s).state.snapshots.filter
          (fun u => u.line == snap.line) ∧
      ∃ j : Nat,
        (StackRecording.updateCurrentStepAndUI t s).state.localStep = (j : Int) ∧
        ∃ u, (StackRecording.updateCurrentStepAndUI t s).state.localSnapshots.get? j = some u ∧
          u.snapshot_id = snap.snapshot_id := by
  obtain ⟨snap, hj, heq⟩ := StackRecording.ucsau_ok_spec t s h
  have hj1 : jsIdx ({ s with currentStep := t } : StackRecording.St).snapshots
      ({ s with currentStep := t } : StackRecording.St).currentStep = some snap := hj
  obtain ⟨hls, hlstep⟩ := StackRecording.updateLocalTimeline_of_some _ hj1
  have hmem : snap ∈ s.snapshots := by
    obtain ⟨_, _, hget⟩ := jsIdx_eq_some hj
    exact List.get?_mem hget
  have hmemf : snap ∈ s.snapshots.filter (fun u => u.line == snap.line) := by
    rw [List.mem_filter]
    exact ⟨hmem, by simp⟩
  have hexf : ∃ x ∈ s.snapshots.filter (fun u => u.line == snap.line),
      (fun u => u.snapshot_id == snap.snapshot_id) x = true := ⟨snap, hmemf, by simp⟩
  obtain ⟨hIeq, hIlt⟩ := findIndexI_of_exists hexf
  obtain ⟨u, hu, hpu⟩ := findIdx_get?_of_lt hIlt
  rw [heq]
  dsimp only
  refine ⟨snap, ?_, ?_, ?_, ?_⟩
  · rw [StackRecording.updateLocalTimeline_snapshots,
      StackRecording.updateLocalTimeline_currentStep]
    exact hj1
  · rw [hls]
    exact hmemf
  · rw [hls, StackRecording.updateLocalTimeline_snapshots]
  · rw [hlstep, hIeq, hls]
    exact ⟨_, rfl, u, hu, beq_iff_eq.mp hpu⟩

/-- C5 witness: the invariant instantiated after navigating to step 2 of
the `[3, 7, 3, 9, 3]` timeline. -/
theorem claim_C5_witness :
    ∃ snap,
      jsIdx (StackRecording.updateCurrentStepAndUI 2 stLines).state.snapshots
        (StackRecording.updateCurrentStepAndUI 2 stLines).state.currentStep = some snap ∧
      snap ∈ (StackRecording.updateCurrentStepAndUI 2 stLines).state.localSnapshots ∧
      (StackRecording.updateCurrentStepAndUI 2 stLines).state.localSnapshots =
        (StackRecording.updateCurrentStepAndUI 2 stLines).state.snapshots.filter
          (fun u => u.line == snap.line) ∧
      ∃ j : Nat,
        (StackRecording.updateCurrentStepAndUI 2 stLines).state.localStep = (j : Int) ∧
        ∃ u, (StackRecording.updateCurrentStepAndUI 2 stLines).state.localSnapshots.get? j
            = some u ∧
          u.snapshot_id = snap.snapshot_id :=
  claim_C5_theorem 2 stLines (by decide)

namespace StackRecording

theorem liveTail_spec (s2 : St) (snap : Snapshot)
    (hj : jsIdx s2.snapshots s2.currentStep = some snap) :
    (match updateCurrentFrame s2 with
     | Except.error _ => (⟨s2, [], true⟩ : Res)
     | Except.ok s3 =>
       let s4 := updateLocalTimeline s3
       if 0 < s4.snapshots.length ∧ s4.currentStep < (s4.snapshots.length : Int) then
         match jsIdx s4.snapshots s4.currentStep with
         | none => ⟨s4, [], true⟩
         | some snp => ⟨s4, [snp.line], false⟩
       else ⟨s4, [], false⟩) =
      ⟨updateLocalTimeline (updateLocalTimeline s2), [snap.line], false⟩ := by
  rw [updateCurrentFrame_some hj]
  dsimp only
  have hs4sn : (updateLocalTimeline (updateLocalTimeline s2)).snapshots = s2.snapshots := by
    rw [updateLocalTimeline_snapshots, updateLocalTimeline_snapshots]
  have hs4cs : (updateLocalTimeline (updateLocalTimeline s2)).currentStep = s2.currentStep := by
    rw [updateLocalTimeline_currentStep, updateLocalTimeline_currentStep]
  obtain ⟨h0, h1, _⟩ := jsIdx_eq_some hj
  have hj4 : jsIdx (updateLocalTimeline (updateLocalTimeline s2)).snapshots
      (updateLocalTimeline (updateLocalTimeline s2)).currentStep = some snap := by
    rw [hs4sn, hs4cs]
    exact hj
  rw [if_pos (by rw [hs4sn, hs4cs]; constructor <;> omega), hj4]

theorem liveTail_err (s2 : St) (h0 : s2.snapshots.length ≠ 0)
    (hn : jsIdx s2.snapshots s2.currentStep = none) :
    (match updateCurrentFrame s2 with
     | Except.error _ => (⟨s2, [], true⟩ : Res)
     | Except.ok s3 =>
       let s4 := updateLocalTimeline s3
       if 0 < s4.snapshots.length ∧ s4.currentStep < (s4.snapshots.length : Int) then
         match jsIdx s4.snapshots s4.currentStep with
         | none => ⟨s4, [], true⟩
         | some snp => ⟨s4, [snp.line], false⟩
       else ⟨s4, [], false⟩) = ⟨s2, [], true⟩ := by
  rw [updateCurrentFrame_none h0 hn]

end StackRecording

/-- C2 counterexample: replacing a three-snapshot timeline positioned at
step 2 with a two-snapshot one leaves `currentStep = 2` — it is not clamped
to the claimed `newLength - 1 = 1` — and the handler throws. -/
theorem claim_C2_counterexample :
    (StackRecording.onUpdateStackTrace (some [snapA, snapB]) stABC2).state.currentStep = 2 ∧
    ¬ (StackRecording.onUpdateStackTrace (some [snapA, snapB]) stABC2).state.currentStep = 1 ∧
    (StackRecording.onUpdateStackTrace (some [snapA, snapB]) stABC2).err = true := by
  decide

/-- C2 amended: a live replace with a nonempty array stores the new
sequence; when strictly longer than before it sets `currentStep` to the new
last index; when equal or shorter it leaves `currentStep` exactly as it was
— with no clamping — and the handler completes without throwing exactly
when the old `currentStep` is still inside the new bounds. -/
theorem claim_C2_theorem (s : StackRecording.St) (snaps : List Snapshot)
    (hne : snaps ≠ []) :
    (StackRecording.onUpdateStackTrace (some snaps) s).state.snapshots = snaps ∧
    (s.snapshots.length < snaps.length →
       (StackRecording.onUpdateStackTrace (some snaps) s).state.currentStep =
         (snaps.length : Int) - 1 ∧
       (StackRecording.onUpdateStackTrace (some snaps) s).err = false) ∧
    (¬ s.snapshots.length < snaps.length →
       (StackRecording.onUpdateStackTrace (some snaps) s).state.currentStep =
         s.currentStep ∧
       ((StackRecording.onUpdateStackTrace (some snaps) s).err = false ↔
          0 ≤ s.currentStep ∧ s.currentStep < (snaps.length : Int))) := by
  have hlen : 0 < snaps.length := List.length_pos.mpr hne
  rw [StackRecording.onUpdateStackTrace_eq2 s snaps hlen]
  dsimp only
  by_cases hgrow : s.snapshots.length < snaps.length
  · rw [if_pos (show _ ∧ _ from ⟨hgrow, hlen⟩)]
    obtain ⟨snap, hjraw, _⟩ := jsIdx_of_bounds (l := snaps)
      (i := (snaps.length : Int) - 1) (by omega) (by omega)
    have hLT := StackRecording.liveTail_spec
      { s with snapshots := snaps, currentStep := (snaps.length : Int) - 1 } snap hjraw
    rw [hLT]
    refine ⟨?_, fun _ => ⟨?_, rfl⟩, fun hc => absurd hgrow hc⟩
    · rw [StackRecording.updateLocalTimeline_snapshots,
        StackRecording.updateLocalTimeline_snapshots]
    · rw [StackRecording.updateLocalTimeline_currentStep,
        StackRecording.updateLocalTimeline_currentStep]
  · rw [if_neg (fun hc => hgrow hc.1)]
    by_cases hb : 0 ≤ s.currentStep ∧ s.currentStep < (snaps.length : Int)
    · obtain ⟨snap, hjraw, _⟩ := jsIdx_of_bounds (l := snaps) (i := s.currentStep) hb.1 hb.2
      have hLT := StackRecording.liveTail_spec { s with snapshots := snaps } snap hjraw
      rw [hLT]
      refine ⟨?_, fun hc => absurd hc hgrow, fun _ => ⟨?_, ?_⟩⟩
      · rw [StackRecording.updateLocalTimeline_snapshots,
          StackRecording.updateLocalTimeline_snapshots]
      · rw [StackRecording.updateLocalTimeline_currentStep,
          StackRecording.updateLocalTimeline_currentStep]
      · exact ⟨fun _ => hb, fun _ => rfl⟩
    · have hnraw : jsIdx snaps s.currentStep = none := by
        rw [jsIdx_none_iff]
        omega
      have hLT := StackRecording.liveTail_err { s with snapshots := snaps }
        (by show snaps.length ≠ 0; omega) hnraw
      rw [hLT]
      refine ⟨rfl, fun hc => absurd hc hgrow, fun _ => ⟨rfl, ?_⟩⟩
      simp only [Bool.true_eq_false, false_iff]
      exact hb


/-- C2 witness: a growing replace (two snapshots to three) applied at a
concrete state follows the latest frame. -/
theorem claim_C2_witness :
    (StackRecording.onUpdateStackTrace (some [snapA, snapB, snapC]) stAB).state.snapshots
        = [snapA, snapB, snapC] ∧
    (stAB.snapshots.length < ([snapA, snapB, snapC] : List Snapshot).length →
       (StackRecording.onUpdateStackTrace (some [snapA, snapB, snapC]) stAB).state.currentStep
          = (([snapA, snapB, snapC] : List Snapshot).length : Int) - 1 ∧
       (StackRecording.onUpdateStackTrace (some [snapA, snapB, snapC]) stAB).err = false) ∧
    (¬ stAB.snapshots.length < ([snapA, snapB, snapC] : List Snapshot).length →
       (StackRecording.onUpdateStackTrace (some [snapA, snapB, snapC]) stAB).state.currentStep
          = stAB.currentStep ∧
       ((StackRecording.onUpdateStackTrace (some [snapA, snapB, snapC]) stAB).err = false ↔
          0 ≤ stAB.currentStep ∧
          stAB.currentStep < (([snapA, snapB, snapC] : List Snapshot).length : Int))) :=
  claim_C2_theorem stAB [snapA, snapB, snapC] (by decide)

/-- C3 counterexample: with variable `v` present (value 42) in local
snapshots 0 and 2 and absent in snapshot 1, the built table renders `42`,
`-`, `-` — the absent cell of row 1 and the unchanged cell of row 2 are the
same `-` marker, not distinct markers as claimed. -/
theorem claim_C3_counterexample :
    StackRecording.buildTable [varSnap0, varSnap1, varSnap2] = [["42"], ["-"], ["-"]] ∧
    (StackRecording.buildTable [varSnap0, varSnap1, varSnap2]).get? 1 =
      (StackRecording.buildTable [varSnap0, varSnap1, varSnap2]).get? 2 := by
  decide

/-- C3 amended: the change table is the claimed fold over the local
timeline with a last-seen map — a first or changed value is shown literally
and updates last-seen — but a snapshot lacking the variable and a snapshot
repeating the last-seen value both render the same `-` cell; so for a
variable present with equal values in rows 0 and 2 and absent in row 1, the
column reads value, `-`, `-`. -/
theorem claim_C3_theorem (v val ty : String) (i0 i1 i2 l0 l1 l2 : Int) :
    StackRecording.buildTable
      [⟨i0, l0, [(v, ⟨val, ty⟩)]⟩, ⟨i1, l1, []⟩, ⟨i2, l2, [(v, ⟨val, ty⟩)]⟩] =
      [[val], ["-"], ["-"]] := by
  simp [StackRecording.buildTable, StackRecording.varNames, StackRecording.allVarNames,
    StackRecording.addName, strSort, strInsert, StackRecording.buildRowsAux,
    StackRecording.buildRow, StackRecording.cellFor, StackRecording.localsGet,
    StackRecording.lastGet, StackRecording.lastSet]

/-- C4: for a timeline with pairwise-distinct snapshot ids containing line
`L`, the `editorLineClick` handler (in the canonical variant and in the
older variant) navigates without throwing to the minimal global index whose
entry has line `L`, even when later duplicates of `L` exist. -/
theorem claim_C4_theorem (L : Int) :
    (∀ s : StackRecording.St,
      (s.snapshots.map Snapshot.snapshot_id).Nodup →
      (∃ t ∈ s.snapshots, t.line = L) →
      ∃ k : Nat,
        (StackRecording.onEditorLineClick L s).state.currentStep = (k : Int) ∧
        (StackRecording.onEditorLineClick L s).err = false ∧
        (∃ t, s.snapshots.get? k = some t ∧ t.line = L) ∧
        (∀ j < k, ∀ t, s.snapshots.get? j = some t → t.line ≠ L)) ∧
    (∀ s6 : Part006.St,
      (∃ t ∈ s6.snapshots, t.line = L) →
      ∃ k : Nat,
        (Part006.onEditorLineClick L s6).state.currentStep = (k : Int) ∧
        (Part006.onEditorLineClick L s6).err = false ∧
        (∃ t, s6.snapshots.get? k = some t ∧ t.line = L) ∧
        (∀ j < k, ∀ t, s6.snapshots.get? j = some t → t.line ≠ L)) := by
  constructor
  · intro s hn hex
    obtain ⟨herr, hcs, _⟩ := StackRecording.onEditorLineClick_spec s L hn hex
    refine ⟨s.snapshots.findIdx (fun t => t.line == L), hcs, herr, ?_, ?_⟩
    · have hlt : s.snapshots.findIdx (fun t => t.line == L) < s.snapshots.length := by
        apply List.findIdx_lt_length_of_exists
        obtain ⟨t0, hm, hl⟩ := hex
        exact ⟨t0, hm, by simp [hl]⟩
      obtain ⟨x, hx, hpx⟩ := findIdx_get?_of_lt hlt
      exact ⟨x, hx, beq_iff_eq.mp hpx⟩
    · intro j hj t ht hEq
      have hfalse := findIdx_minimal s.snapshots (fun t => t.line == L) j hj t ht
      simp [hEq] at hfalse
  · intro s6 hex
    obtain ⟨herr, hcs, _⟩ := Part006.lineClickFirst_spec s6 L hex
    refine ⟨s6.snapshots.findIdx (fun t => t.line == L), hcs, herr, ?_, ?_⟩
    · have hlt : s6.snapshots.findIdx (fun t => t.line == L) < s6.snapshots.length := by
        apply List.findIdx_lt_length_of_exists
        obtain ⟨t0, hm, hl⟩ := hex
        exact ⟨t0, hm, by simp [hl]⟩
      obtain ⟨x, hx, hpx⟩ := findIdx_get?_of_lt hlt
      exact ⟨x, hx, beq_iff_eq.mp hpx⟩
    · intro j hj t ht hEq
      have hfalse := findIdx_minimal s6.snapshots (fun t => t.line == L) j hj t ht
      simp [hEq] at hfalse

/-- C4 witness: on the `[3, 7, 3, 9, 3]` timeline an editor click on line 3
resolves to some minimal matching index in both variants. -/
theorem claim_C4_witness :
    (∃ k : Nat,
      (StackRecording.onEditorLineClick 3 stLines).state.currentStep = (k : Int) ∧
      (StackRecording.onEditorLineClick 3 stLines).err = false ∧
      (∃ t, stLines.snapshots.get? k = some t ∧ t.line = 3) ∧
      (∀ j < k, ∀ t, stLines.snapshots.get? j = some t → t.line ≠ 3)) ∧
    (∃ k : Nat,
      (Part006.onEditorLineClick 3 p6StLines).state.currentStep = (k : Int) ∧
      (Part006.onEditorLineClick 3 p6StLines).err = false ∧
      (∃ t, p6StLines.snapshots.get? k = some t ∧ t.line = 3) ∧
      (∀ j < k, ∀ t, p6StLines.snapshots.get? j = some t → t.line ≠ 3)) :=
  ⟨(claim_C4_theorem 3).1 stLines (by decide) ⟨⟨1, 3, []⟩, by decide, rfl⟩,
   (claim_C4_theorem 3).2 p6StLines ⟨⟨0, 1, 3, []⟩, by decide, rfl⟩⟩

/-- C9: when `currentStep` already sits at the first (lowest) global index
whose line equals `L`, an editor click on `L` leaves `currentStep`
unchanged (ids assumed pairwise distinct, as delivered by the loader). -/
theorem claim_C9_theorem (s : StackRecording.St) (L : Int) (k : Nat)
    (hn : (s.snapshots.map Snapshot.snapshot_id).Nodup)
    (hk : s.currentStep = (k : Int))
    (ht : ∃ t, s.snapshots.get? k = some t ∧ t.line = L)
    (hmin : ∀ j < k, ∀ t, s.snapshots.get? j = some t → t.line ≠ L) :
    (StackRecording.onEditorLineClick L s).state.currentStep = s.currentStep := by
  obtain ⟨t0, ht0, hl0⟩ := ht
  have hex : ∃ t ∈ s.snapshots, t.line = L := ⟨t0, List.get?_mem ht0, hl0⟩
  obtain ⟨_, hcs, _⟩ := StackRecording.onEditorLineClick_spec s L hn hex
  have hkf : s.snapshots.findIdx (fun t => t.line == L) = k := by
    apply findIdx_eq_of_minimal ht0 (by simp [hl0])
    intro j hj y hy
    rw [beq_eq_false_iff_ne]
    exact hmin j hj y hy
  rw [hcs, hkf, hk]

/-- C9 witness: on the `[3, 7, 3, 9, 3]` timeline positioned at index 0
(the first occurrence of line 3), clicking line 3 keeps the cursor at 0. -/
theorem claim_C9_witness :
    (StackRecording.onEditorLineClick 3 stLines).state.currentStep = stLines.currentStep :=
  claim_C9_theorem stLines 3 0 (by decide) (by decide) ⟨⟨1, 3, []⟩, by decide, rfl⟩
    (fun j hj => absurd hj (Nat.not_lt_zero j))

namespace StackTraceJs

theorem tUlt_snapshots (s : St) :
    (updateLocalTimeline s).snapshots = s.snapshots := by
  unfold updateLocalTimeline
  split
  · rfl
  · cases jsIdx s.snapshots s.currentStep <;> rfl

theorem tUlt_currentStep (s : St) :
    (updateLocalTimeline s).currentStep = s.currentStep := by
  unfold updateLocalTimeline
  split
  · rfl
  · cases jsIdx s.snapshots s.currentStep <;> rfl

theorem tUcf_empty {s : St} (h0 : s.snapshots.length = 0) :
    updateCurrentFrame s = Except.ok s := by
  unfold updateCurrentFrame
  rw [if_pos h0]

theorem tUcf_some {s : St} {snap : SnapshotR}
    (hs : jsIdx s.snapshots s.currentStep = some snap) :
    updateCurrentFrame s = Except.ok (updateLocalTimeline s) := by
  have h0 : s.snapshots.length ≠ 0 := by
    obtain ⟨_, h1, _⟩ := jsIdx_eq_some hs
    omega
  unfold updateCurrentFrame
  rw [if_neg h0, hs]

theorem tUcf_none {s : St} (h0 : s.snapshots.length ≠ 0)
    (hn : jsIdx s.snapshots s.currentStep = none) :
    updateCurrentFrame s = Except.error () := by
  unfold updateCurrentFrame
  rw [if_neg h0, hn]

theorem tUcsau_eq (t : Int) (s : St) :
    updateCurrentStepAndUI t s =
      match updateCurrentFrame { s with currentStep := t } with
      | Except.error _ => ⟨{ s with currentStep := t }, [], true⟩
      | Except.ok s2 =>
        match jsIdx s2.snapshots s2.currentStep with
        | none => ⟨s2, [], true⟩
        | some snap => ⟨s2, [snap.line], false⟩ := rfl

theorem tUcsau_ok_spec (t : Int) (s : St)
    (h : (updateCurrentStepAndUI t s).err = false) :
    ∃ snap, jsIdx s.snapshots t = some snap ∧
      updateCurrentStepAndUI t s =
        ⟨updateLocalTimeline { s with currentStep := t }, [snap.line], false⟩ := by
  rw [tUcsau_eq] at h ⊢
  by_cases h0 : ({ s with currentStep := t } : St).snapshots.length = 0
  · rw [tUcf_empty h0] at h
    have hj : jsIdx ({ s with currentStep := t } : St).snapshots
        ({ s with currentStep := t } : St).currentStep = none := by
      have he : ({ s with currentStep := t } : St).snapshots = [] :=
        List.length_eq_zero.mp h0
      rw [he]
      exact jsIdx_nil _
    dsimp only at h
    rw [hj] at h
    simp at h
  · cases hj : jsIdx ({ s with currentStep := t } : St).snapshots
        ({ s with currentStep := t } : St).currentStep with
    | none =>
      rw [tUcf_none h0 hj] at h
      simp at h
    | some snap =>
      have hj2 : jsIdx (updateLocalTimeline { s with currentStep := t }).snapshots
          (updateLocalTimeline { s with currentStep := t }).currentStep = some snap := by
        rw [tUlt_snapshots, tUlt_currentStep]
        exact hj
      refine ⟨snap, rfl, ?_⟩
      rw [tUcf_some hj]
      dsimp only
      rw [hj2]

theorem tFindIndexById_ok_cases (l : List SnapshotR) (osnap : Option SnapshotR) (g : Int)
    (h : findIndexById l osnap = Except.ok g) :
    g = -1 ∨ ∃ k : Nat, g = (k : Int) ∧ k < l.length ∧
      ∃ sel x, osnap = some sel ∧ l.get? k = some x ∧ x.id = sel.id := by
  unfold findIndexById at h
  cases l with
  | nil =>
    cases osnap <;> simp_all
  | cons a as =>
    cases osnap with
    | none => simp at h
    | some t =>
      simp only [Except.ok.injEq] at h
      rcases findIndexI_cases (a :: as) (fun u => u.id == t.id) with hc | hc
      · left; omega
      · obtain ⟨k, hk1, hk2, x, hx, hpx⟩ := hc
        right
        exact ⟨k, by omega, hk2, t, x, rfl, hx, beq_iff_eq.mp hpx⟩

theorem tLocalNavigate_id_property (s : St) (h : (localNavigate s).err = false) :
    (localNavigate s).state.currentStep = s.currentStep ∨
    ∃ sel snap, jsIdx s.localSnapshots s.localStep = some sel ∧
      jsIdx (localNavigate s).state.snapshots (localNavigate s).state.currentStep = some snap ∧
      snap.id = sel.id := by
  unfold localNavigate at h ⊢
  cases hfb : findIndexById s.snapshots (jsIdx s.localSnapshots s.localStep) with
  | error e =>
    rw [hfb] at h
    simp at h
  | ok g =>
    rw [hfb] at h
    dsimp only at h ⊢
    by_cases hcond : g ≠ -1 ∧ g ≠ s.currentStep
    · rw [if_pos hcond] at h ⊢
      rcases tFindIndexById_ok_cases _ _ _ hfb with hg | ⟨k, hk1, hk2, sel, x, hosnap, hx, hid⟩
      · exact absurd hg hcond.1
      · right
        subst hk1
        obtain ⟨snap2, hj, heq⟩ := tUcsau_ok_spec _ _ h
        have hxeq : x = snap2 := by
          obtain ⟨_, _, hget⟩ := jsIdx_eq_some hj
          rw [Int.toNat_natCast] at hget
          rw [hget] at hx
          injection hx with hv
          exact hv.symm
        refine ⟨sel, snap2, hosnap, ?_, ?_⟩
        · rw [heq]
          dsimp only
          rw [tUlt_snapshots, tUlt_currentStep]
          exact hj
        · rw [← hxeq]
          exact hid
    · rw [if_neg hcond] at h ⊢
      left
      rfl

end StackTraceJs

/-- C6 counterexample: in the older variant, after loading two same-line
snapshots, a local-next click leaves `currentStep` at 0, whereas the
spec's id-equality mapping of local index 1 yields global index 1 — the
id-equality mapping rule does not hold in every navigation-script
variant. -/
theorem claim_C6_counterexample :
    (Part006.localNextClick p6StAB).state.currentStep = 0 ∧
    specLocalToGlobalIndex [refA, refB] (specProject [refA, refB] 5) 1 = 1 ∧
    (Part006.localNextClick p6StAB).state.currentStep ≠
      specLocalToGlobalIndex [refA, refB] (specProject [refA, refB] 5) 1 := by
  decide

/-- C6 amended: in `stackRecording.js` and in `stackTrace.js`, whenever the
local slider/prev/next mapping block completes without throwing it either
leaves `currentStep` unchanged or lands on a global entry carrying the same
snapshot id as the selected local entry (`snapshot_id` resp. `id` equality
— not reference or positional equality); the older `part_006` variant
instead compares by object reference against a `localSnapshots` array it
never populates, so its local slider/prev/next never change
`currentStep`. -/
theorem claim_C6_theorem :
    (∀ s6 : Part006.St, s6.localSnapshots = [] →
       (Part006.localNextClick s6).state.currentStep = s6.currentStep ∧
       (Part006.localPrevClick s6).state.currentStep = s6.currentStep ∧
       ∀ v : Int, (Part006.localSliderInput v s6).state.currentStep = s6.currentStep) ∧
    (∀ s : StackRecording.St, (StackRecording.localNavigate s).err = false →
       (StackRecording.localNavigate s).state.currentStep = s.currentStep ∨
       ∃ sel snap, jsIdx s.localSnapshots s.localStep = some sel ∧
         jsIdx (StackRecording.localNavigate s).state.snapshots
           (StackRecording.localNavigate s).state.currentStep = some snap ∧
         snap.snapshot_id = sel.snapshot_id) ∧
    (∀ s3 : StackTraceJs.St, (StackTraceJs.localNavigate s3).err = false →
       (StackTraceJs.localNavigate s3).state.currentStep = s3.currentStep ∨
       ∃ sel snap, jsIdx s3.localSnapshots s3.localStep = some sel ∧
         jsIdx (StackTraceJs.localNavigate s3).state.snapshots
           (StackTraceJs.localNavigate s3).state.currentStep = some snap ∧
         snap.id = sel.id) := by
  refine ⟨?_, ?_, ?_⟩
  · intro s6 h
    exact ⟨Part006.localNextClick_inert s6 h, Part006.localPrevClick_inert s6 h,
      fun v => Part006.localSliderInput_inert v s6 h⟩
  · intro s h
    exact StackRecording.localNavigate_id_property s h
  · intro s3 h
    exact StackTraceJs.tLocalNavigate_id_property s3 h

/-- C6 witness: the older variant stays put at a concrete state, and the
mapping blocks of the canonical variant and of the stackTrace variant, each
at a state selecting the second local entry, resolve by id. -/
theorem claim_C6_witness :
    (Part006.localNextClick p6StAB).state.currentStep = p6StAB.currentStep ∧
    ((StackRecording.localNavigate stLoc).state.currentStep = stLoc.currentStep ∨
     ∃ sel snap, jsIdx stLoc.localSnapshots stLoc.localStep = some sel ∧
       jsIdx (StackRecording.localNavigate stLoc).state.snapshots
         (StackRecording.localNavigate stLoc).state.currentStep = some snap ∧
       snap.snapshot_id = sel.snapshot_id) ∧
    ((StackTraceJs.localNavigate tStLoc).state.currentStep = tStLoc.currentStep ∨
     ∃ sel snap, jsIdx tStLoc.localSnapshots tStLoc.localStep = some sel ∧
       jsIdx (StackTraceJs.localNavigate tStLoc).state.snapshots
         (StackTraceJs.localNavigate tStLoc).state.currentStep = some snap ∧
       snap.id = sel.id) :=
  ⟨(claim_C6_theorem.1 p6StAB (by decide)).1,
   claim_C6_theorem.2.1 stLoc (by decide),
   claim_C6_theorem.2.2 tStLoc (by decide)⟩

/-- C8 counterexample: after a live replace invalidates the local timeline
(reached concretely by load, next, shrink-replace), a local-prev click hits
a stale id, the lookup yields `-1`, `currentStep` stays put and no
highlight is emitted — but the local-timeline controls are NOT disabled:
both `disabled` flags remain `false`, contradicting the claim that they are
disabled until the next successful navigation. -/
theorem claim_C8_counterexample :
    (StackRecording.localPrevClick exC8St3).err = false ∧
    (StackRecording.localPrevClick exC8St3).msgs = [] ∧
    (StackRecording.localPrevClick exC8St3).state.currentStep = exC8St3.currentStep ∧
    (StackRecording.localPrevClick exC8St3).state.localPrevDisabled = false ∧
    (StackRecording.localPrevClick exC8St3).state.localNextDisabled = false := by
  decide

/-- C8 amended: when a local-prev click selects a local entry whose id no
longer occurs in the global timeline, the lookup yields `-1` and the
operation changes neither `currentStep`, the stored timelines, nor the
button `disabled` flags (they keep their previous values rather than being
disabled), emits no highlight and does not throw; `localStep` alone is
still decremented. -/
theorem claim_C8_theorem (s : StackRecording.St) (sel : Snapshot)
    (h1 : 0 < s.localStep)
    (hsel : jsIdx s.localSnapshots (s.localStep - 1) = some sel)
    (hstale : ∀ t ∈ s.snapshots, t.snapshot_id ≠ sel.snapshot_id) :
    (StackRecording.localPrevClick s).err = false ∧
    (StackRecording.localPrevClick s).msgs = [] ∧
    (StackRecording.localPrevClick s).state.currentStep = s.currentStep ∧
    (StackRecording.localPrevClick s).state.snapshots = s.snapshots ∧
    (StackRecording.localPrevClick s).state.localSnapshots = s.localSnapshots ∧
    (StackRecording.localPrevClick s).state.localPrevDisabled = s.localPrevDisabled ∧
    (StackRecording.localPrevClick s).state.localNextDisabled = s.localNextDisabled ∧
    (StackRecording.localPrevClick s).state.localStep = s.localStep - 1 := by
  have hne : 0 < s.localSnapshots.length := by
    obtain ⟨_, hlt, _⟩ := jsIdx_eq_some hsel
    omega
  have hfb : StackRecording.findIndexById s.snapshots (some sel) = Except.ok (-1) := by
    cases hs : s.snapshots with
    | nil => rfl
    | cons a as =>
      unfold StackRecording.findIndexById
      have hI : findIndexI (a :: as) (fun u => u.snapshot_id == sel.snapshot_id) = -1 := by
        apply findIndexI_none
        intro x hx
        rw [beq_eq_false_iff_ne]
        exact hstale x (hs ▸ hx)
      dsimp only
      rw [hI]
  have hsel' : jsIdx ({ s with localStep := s.localStep - 1 } : StackRecording.St).localSnapshots
      ({ s with localStep := s.localStep - 1 } : StackRecording.St).localStep = some sel := hsel
  have hfb' : StackRecording.findIndexById
      ({ s with localStep := s.localStep - 1 } : StackRecording.St).snapshots
      (jsIdx ({ s with localStep := s.localStep - 1 } : StackRecording.St).localSnapshots
        ({ s with localStep := s.localStep - 1 } : StackRecording.St).localStep) =
      Except.ok (-1) := by
    rw [hsel']
    exact hfb
  unfold StackRecording.localPrevClick
  rw [if_pos ⟨h1, hne⟩]
  unfold StackRecording.localNavigate
  rw [hfb']
  dsimp only
  rw [if_neg (by simp)]
  exact ⟨rfl, rfl, rfl, rfl, rfl, rfl, rfl, rfl⟩

/-- C8 witness: the amended behavior instantiated at the concrete
stale-reference state. -/
theorem claim_C8_witness :
    (StackRecording.localPrevClick exC8St3).err = false ∧
    (StackRecording.localPrevClick exC8St3).msgs = [] ∧
    (StackRecording.localPrevClick exC8St3).state.currentStep = exC8St3.currentStep ∧
    (StackRecording.localPrevClick exC8St3).state.snapshots = exC8St3.snapshots ∧
    (StackRecording.localPrevClick exC8St3).state.localSnapshots = exC8St3.localSnapshots ∧
    (StackRecording.localPrevClick exC8St3).state.localPrevDisabled
        = exC8St3.localPrevDisabled ∧
    (StackRecording.localPrevClick exC8St3).state.localNextDisabled
        = exC8St3.localNextDisabled ∧
    (StackRecording.localPrevClick exC8St3).state.localStep = exC8St3.localStep - 1 :=
  claim_C8_theorem exC8St3 snapL1 (by decide) (by decide) (by decide)
